import Mathlib

/-!
Verification of the byte-conversion layer of `num-traits` (files
`src/ops/bytes.rs` and `build.rs`).

Modelling choices (shallow embedding):
* A value of a fixed-width primitive type of byte-width `w` is represented by
  its bit pattern, a natural number `n < 256 ^ w`.  For signed integers this is
  the two's-complement bit pattern; for floats the IEEE-754 bit pattern.  All
  six operations of the `ToFromBytes` trait act only on bit patterns, so this
  representation is exact (bit-for-bit), including NaN payloads and the sign
  bit of zero.
* A byte array `[u8; L]` is a `List Nat` of length `L` whose entries are
  `< 256`.
* `transmute` between a primitive and its byte array is the platform's
  in-memory layout: little-endian byte order on a little-endian target, big-
  endian on a big-endian target.  The target endianness is an explicit
  parameter `Endian`.
-/

/-- Target endianness (`cfg(target_endian)`). -/
inductive Endian
  | big
  | little
deriving DecidableEq, Repr

/-- The three byte orderings exposed by the trait: big-endian, little-endian,
native. -/
inductive ByteOrder
  | be
  | le
  | ne
deriving DecidableEq, Repr

/-- The two implementation strategies of `bytes.rs`: the native path that
delegates to the platform primitives, and the manual fallback path. -/
inductive Impl
  | native
  | fallback
deriving DecidableEq, Repr

/-- Little-endian byte list of the `w`-byte bit pattern `n`:
byte 0 is the least significant byte. -/
def leBytes : Nat → Nat → List Nat
  | 0, _ => []
  | w + 1, n => n % 256 :: leBytes w (n / 256)

/-- Big-endian byte list of the `w`-byte bit pattern `n`:
byte 0 is the most significant byte. -/
def beBytes (w n : Nat) : List Nat := (leBytes w n).reverse

/-- Read a little-endian byte list back into a bit pattern. -/
def fromLeBytesFn : List Nat → Nat
  | [] => 0
  | b :: bs => b + 256 * fromLeBytesFn bs

/-- A well-formed byte array for width `w`: the right length, every entry a
byte. -/
def ValidBytes (w : Nat) (bs : List Nat) : Prop :=
  bs.length = w ∧ ∀ b ∈ bs, b < 256

instance (w : Nat) (bs : List Nat) : Decidable (ValidBytes w bs) := by
  unfold ValidBytes
  infer_instance

/-! ### The platform primitives (Rust `core`), leaves of the code under audit.

`uN::to_be_bytes` and friends are the compiler-provided primitives that the
native strategy delegates to.  Their documented semantics on the bit pattern
are the big- and little-endian byte lists above; `to_ne_bytes`/`from_ne_bytes`
follow the target endianness. -/

/-- Rust `uN::to_be_bytes` on the bit pattern `n` of a `w`-byte integer. -/
def std_to_be_bytes (w n : Nat) : List Nat := beBytes w n

/-- Rust `uN::to_le_bytes`. -/
def std_to_le_bytes (w n : Nat) : List Nat := leBytes w n

/-- Rust `uN::to_ne_bytes`: the in-memory layout of the target. -/
def std_to_ne_bytes (e : Endian) (w n : Nat) : List Nat :=
  match e with
  | .big => std_to_be_bytes w n
  | .little => std_to_le_bytes w n

/-- Rust `uN::from_be_bytes`. -/
def std_from_be_bytes (bs : List Nat) : Nat := fromLeBytesFn bs.reverse

/-- Rust `uN::from_le_bytes`. -/
def std_from_le_bytes (bs : List Nat) : Nat := fromLeBytesFn bs

/-- Rust `uN::from_ne_bytes`. -/
def std_from_ne_bytes (e : Endian) (bs : List Nat) : Nat :=
  match e with
  | .big => std_from_be_bytes bs
  | .little => std_from_le_bytes bs

/-- Rust `uN::swap_bytes`: reverse the byte order of the `w`-byte pattern. -/
def swap_bytes (w n : Nat) : Nat := std_from_le_bytes (std_to_be_bytes w n)

/-- Rust `uN::to_be`: identity on a big-endian target, byte swap on a
little-endian one. -/
def to_be (e : Endian) (w n : Nat) : Nat :=
  match e with
  | .big => n
  | .little => swap_bytes w n

/-- Rust `uN::to_le`. -/
def to_le (e : Endian) (w n : Nat) : Nat :=
  match e with
  | .big => swap_bytes w n
  | .little => n

/-- Rust `uN::from_be` (same byte-swap decision as `to_be`). -/
def from_be (e : Endian) (w n : Nat) : Nat :=
  match e with
  | .big => n
  | .little => swap_bytes w n

/-- Rust `uN::from_le`. -/
def from_le (e : Endian) (w n : Nat) : Nat :=
  match e with
  | .big => swap_bytes w n
  | .little => n

/-- `unsafe { transmute(self) }` of a `w`-byte primitive into `[u8; w]`:
the raw in-memory layout on target endianness `e`. -/
def transmuteToBytes (e : Endian) (w n : Nat) : List Nat :=
  match e with
  | .big => beBytes w n
  | .little => leBytes w n

/-- `unsafe { transmute(bytes) }` of `[u8; w]` into the primitive. -/
def transmuteFromBytes (e : Endian) (bs : List Nat) : Nat :=
  match e with
  | .big => fromLeBytesFn bs.reverse
  | .little => fromLeBytesFn bs

/-! ### The native integer implementation, `bytes.rs` lines 189-222
(`cfg(feature = "has_int_to_from_bytes")`): every trait method delegates to
the platform primitive of the same name. -/

namespace IntNative

def to_be_bytes (_e : Endian) (w n : Nat) : List Nat := std_to_be_bytes w n

def to_le_bytes (_e : Endian) (w n : Nat) : List Nat := std_to_le_bytes w n

def to_ne_bytes (e : Endian) (w n : Nat) : List Nat := std_to_ne_bytes e w n

def from_be_bytes (_e : Endian) (_w : Nat) (bs : List Nat) : Nat := std_from_be_bytes bs

def from_le_bytes (_e : Endian) (_w : Nat) (bs : List Nat) : Nat := std_from_le_bytes bs

def from_ne_bytes (e : Endian) (_w : Nat) (bs : List Nat) : Nat := std_from_ne_bytes e bs

end IntNative

/-! ### The fallback integer implementation, `bytes.rs` lines 224-257
(`cfg(not(feature = "has_int_to_from_bytes"))`). -/

namespace IntFallback

/-- Line 240: `unsafe { transmute(self) }`. -/
def to_ne_bytes (e : Endian) (w n : Nat) : List Nat := transmuteToBytes e w n

/-- Line 230: `<$T>::to_ne_bytes(<$T>::to_be(self))`. -/
def to_be_bytes (e : Endian) (w n : Nat) : List Nat := to_ne_bytes e w (to_be e w n)

/-- Line 235: `<$T>::to_ne_bytes(<$T>::to_le(self))`. -/
def to_le_bytes (e : Endian) (w n : Nat) : List Nat := to_ne_bytes e w (to_le e w n)

/-- Line 255: `unsafe { transmute(bytes) }`. -/
def from_ne_bytes (e : Endian) (_w : Nat) (bs : List Nat) : Nat := transmuteFromBytes e bs

/-- Line 245: `Self::from_be(Self::from_ne_bytes(bytes))`. -/
def from_be_bytes (e : Endian) (w : Nat) (bs : List Nat) : Nat :=
  from_be e w (from_ne_bytes e w bs)

/-- Line 250: `Self::from_le(Self::from_ne_bytes(bytes))`. -/
def from_le_bytes (e : Endian) (w : Nat) (bs : List Nat) : Nat :=
  from_le e w (from_ne_bytes e w bs)

end IntFallback

/-! ### The native float implementation, `bytes.rs` lines 115-148
(`cfg(feature = "has_float_to_from_bytes")`): delegates to the platform float
primitives, which act on the IEEE-754 bit pattern exactly as the integer ones
do on the integer bit pattern. -/

namespace FloatNative

def to_be_bytes (_e : Endian) (w n : Nat) : List Nat := std_to_be_bytes w n

def to_le_bytes (_e : Endian) (w n : Nat) : List Nat := std_to_le_bytes w n

def to_ne_bytes (e : Endian) (w n : Nat) : List Nat := std_to_ne_bytes e w n

def from_be_bytes (_e : Endian) (_w : Nat) (bs : List Nat) : Nat := std_from_be_bytes bs

def from_le_bytes (_e : Endian) (_w : Nat) (bs : List Nat) : Nat := std_from_le_bytes bs

def from_ne_bytes (e : Endian) (_w : Nat) (bs : List Nat) : Nat := std_from_ne_bytes e bs

end FloatNative

/-! ### The fallback float implementation, `bytes.rs` lines 150-183
(`cfg(not(feature = "has_float_to_from_bytes"))`): routes through the
equal-width unsigned integer `$I` (`u32` for `f32`, `u64` for `f64`).
The float value is represented by its bit pattern `n`. -/

namespace FloatFallback

/-- Line 166: `unsafe { transmute(self) }`. -/
def to_ne_bytes (e : Endian) (w n : Nat) : List Nat := transmuteToBytes e w n

/-- Line 156: `<$I>::from_ne_bytes(self.to_ne_bytes()).to_be_bytes()`. -/
def to_be_bytes (e : Endian) (w n : Nat) : List Nat :=
  std_to_be_bytes w (std_from_ne_bytes e (to_ne_bytes e w n))

/-- Line 161: `<$I>::from_ne_bytes(self.to_ne_bytes()).to_le_bytes()`. -/
def to_le_bytes (e : Endian) (w n : Nat) : List Nat :=
  std_to_le_bytes w (std_from_ne_bytes e (to_ne_bytes e w n))

/-- Line 181: `unsafe { transmute(bytes) }`. -/
def from_ne_bytes (e : Endian) (_w : Nat) (bs : List Nat) : Nat := transmuteFromBytes e bs

/-- Line 171: `Self::from_ne_bytes(<$I>::from_be_bytes(bytes).to_ne_bytes())`. -/
def from_be_bytes (e : Endian) (w : Nat) (bs : List Nat) : Nat :=
  from_ne_bytes e w (std_to_ne_bytes e w (std_from_be_bytes bs))

/-- Line 176: `Self::from_ne_bytes(<$I>::from_le_bytes(bytes).to_ne_bytes())`. -/
def from_le_bytes (e : Endian) (w : Nat) (bs : List Nat) : Nat :=
  from_ne_bytes e w (std_to_ne_bytes e w (std_from_le_bytes bs))

end FloatFallback

/-! ### Dispatch over strategy and ordering. -/

/-- The `to_X_bytes` operation of the integer impl selected by `i`,
ordering `o`, target endianness `e`, width `w`, value bit pattern `n`. -/
def intToBytes (i : Impl) (o : ByteOrder) (e : Endian) (w n : Nat) : List Nat :=
  match i, o with
  | .native, .be => IntNative.to_be_bytes e w n
  | .native, .le => IntNative.to_le_bytes e w n
  | .native, .ne => IntNative.to_ne_bytes e w n
  | .fallback, .be => IntFallback.to_be_bytes e w n
  | .fallback, .le => IntFallback.to_le_bytes e w n
  | .fallback, .ne => IntFallback.to_ne_bytes e w n

/-- The `from_X_bytes` operation of the integer impl selected by `i`. -/
def intFromBytes (i : Impl) (o : ByteOrder) (e : Endian) (w : Nat) (bs : List Nat) : Nat :=
  match i, o with
  | .native, .be => IntNative.from_be_bytes e w bs
  | .native, .le => IntNative.from_le_bytes e w bs
  | .native, .ne => IntNative.from_ne_bytes e w bs
  | .fallback, .be => IntFallback.from_be_bytes e w bs
  | .fallback, .le => IntFallback.from_le_bytes e w bs
  | .fallback, .ne => IntFallback.from_ne_bytes e w bs

/-- The `to_X_bytes` operation of the float impl selected by `i`. -/
def floatToBytes (i : Impl) (o : ByteOrder) (e : Endian) (w n : Nat) : List Nat :=
  match i, o with
  | .native, .be => FloatNative.to_be_bytes e w n
  | .native, .le => FloatNative.to_le_bytes e w n
  | .native, .ne => FloatNative.to_ne_bytes e w n
  | .fallback, .be => FloatFallback.to_be_bytes e w n
  | .fallback, .le => FloatFallback.to_le_bytes e w n
  | .fallback, .ne => FloatFallback.to_ne_bytes e w n

/-- The `from_X_bytes` operation of the float impl selected by `i`. -/
def floatFromBytes (i : Impl) (o : ByteOrder) (e : Endian) (w : Nat) (bs : List Nat) : Nat :=
  match i, o with
  | .native, .be => FloatNative.from_be_bytes e w bs
  | .native, .le => FloatNative.from_le_bytes e w bs
  | .native, .ne => FloatNative.from_ne_bytes e w bs
  | .fallback, .be => FloatFallback.from_be_bytes e w bs
  | .fallback, .le => FloatFallback.from_le_bytes e w bs
  | .fallback, .ne => FloatFallback.from_ne_bytes e w bs

/-! ### Basic lemmas about the byte lists. -/

theorem leBytes_length (w : Nat) : ∀ n, (leBytes w n).length = w := by
  induction w with
  | zero => intro n; rfl
  | succ w ih => intro n; simp [leBytes, ih]

theorem leBytes_lt (w : Nat) : ∀ n, ∀ b ∈ leBytes w n, b < 256 := by
  induction w with
  | zero => intro n b hb; simp [leBytes] at hb
  | succ w ih =>
    intro n b hb
    simp only [leBytes, List.mem_cons] at hb
    rcases hb with h | h
    · subst h
      exact Nat.mod_lt _ (by norm_num)
    · exact ih _ b h

theorem validBytes_leBytes (w n : Nat) : ValidBytes w (leBytes w n) :=
  ⟨leBytes_length w n, leBytes_lt w n⟩

theorem validBytes_reverse {w : Nat} {bs : List Nat} (h : ValidBytes w bs) :
    ValidBytes w bs.reverse := by
  obtain ⟨hlen, hlt⟩ := h
  refine ⟨by simp [hlen], ?_⟩
  intro b hb
  exact hlt b (List.mem_reverse.mp hb)

theorem validBytes_beBytes (w n : Nat) : ValidBytes w (beBytes w n) :=
  validBytes_reverse (validBytes_leBytes w n)

theorem fromLe_leBytes (w : Nat) : ∀ n, n < 256 ^ w → fromLeBytesFn (leBytes w n) = n := by
  induction w with
  | zero =>
    intro n h
    rw [pow_zero, Nat.lt_one_iff] at h
    simp [leBytes, fromLeBytesFn, h]
  | succ w ih =>
    intro n h
    have hd : n / 256 < 256 ^ w := by
      rw [Nat.div_lt_iff_lt_mul (by norm_num)]
      calc n < 256 ^ (w + 1) := h
        _ = 256 ^ w * 256 := by ring
    simp only [leBytes, fromLeBytesFn, ih _ hd]
    omega

theorem leBytes_fromLe : ∀ bs : List Nat, (∀ b ∈ bs, b < 256) →
    leBytes bs.length (fromLeBytesFn bs) = bs := by
  intro bs
  induction bs with
  | nil => intro _; rfl
  | cons b bs ih =>
    intro h
    have hb : b < 256 := h b (by simp)
    have hrec := ih (fun x hx => h x (by simp [hx]))
    simp only [List.length_cons, leBytes, fromLeBytesFn]
    have hmod : (b + 256 * fromLeBytesFn bs) % 256 = b := by omega
    have hdiv : (b + 256 * fromLeBytesFn bs) / 256 = fromLeBytesFn bs := by omega
    rw [hmod, hdiv, hrec]

theorem fromLe_lt : ∀ bs : List Nat, (∀ b ∈ bs, b < 256) →
    fromLeBytesFn bs < 256 ^ bs.length := by
  intro bs
  induction bs with
  | nil => intro _; simp [fromLeBytesFn]
  | cons b bs ih =>
    intro h
    have hb : b < 256 := h b (by simp)
    have hrec := ih (fun x hx => h x (by simp [hx]))
    simp only [fromLeBytesFn, List.length_cons, pow_succ]
    calc b + 256 * fromLeBytesFn bs < 256 * (fromLeBytesFn bs + 1) := by omega
      _ ≤ 256 * 256 ^ bs.length := Nat.mul_le_mul_left _ hrec
      _ = 256 ^ bs.length * 256 := by ring

theorem leBytes_fromLe_w {w : Nat} {bs : List Nat} (h : ValidBytes w bs) :
    leBytes w (fromLeBytesFn bs) = bs := by
  obtain ⟨hlen, hlt⟩ := h
  subst hlen
  exact leBytes_fromLe bs hlt

theorem fromLe_lt_w {w : Nat} {bs : List Nat} (h : ValidBytes w bs) :
    fromLeBytesFn bs < 256 ^ w := by
  obtain ⟨hlen, hlt⟩ := h
  subst hlen
  exact fromLe_lt bs hlt

/-! ### Round trips of the platform primitives. -/

theorem fromBe_beBytes (w n : Nat) (h : n < 256 ^ w) :
    std_from_be_bytes (std_to_be_bytes w n) = n := by
  simp only [std_from_be_bytes, std_to_be_bytes, beBytes, List.reverse_reverse]
  exact fromLe_leBytes w n h

theorem beBytes_fromBe_w {w : Nat} {bs : List Nat} (h : ValidBytes w bs) :
    std_to_be_bytes w (std_from_be_bytes bs) = bs := by
  simp only [std_to_be_bytes, std_from_be_bytes, beBytes]
  rw [leBytes_fromLe_w (validBytes_reverse h), List.reverse_reverse]

theorem fromBe_lt_w {w : Nat} {bs : List Nat} (h : ValidBytes w bs) :
    std_from_be_bytes bs < 256 ^ w :=
  fromLe_lt_w (validBytes_reverse h)

theorem transmuteFrom_transmuteTo (e : Endian) (w n : Nat) (h : n < 256 ^ w) :
    transmuteFromBytes e (transmuteToBytes e w n) = n := by
  cases e with
  | big =>
    simp only [transmuteFromBytes, transmuteToBytes, beBytes, List.reverse_reverse]
    exact fromLe_leBytes w n h
  | little => exact fromLe_leBytes w n h

theorem transmuteTo_transmuteFrom (e : Endian) {w : Nat} {bs : List Nat}
    (h : ValidBytes w bs) : transmuteToBytes e w (transmuteFromBytes e bs) = bs := by
  cases e with
  | big =>
    simp only [transmuteFromBytes, transmuteToBytes, beBytes]
    rw [leBytes_fromLe_w (validBytes_reverse h), List.reverse_reverse]
  | little => exact leBytes_fromLe_w h

theorem transmuteFrom_lt (e : Endian) {w : Nat} {bs : List Nat} (h : ValidBytes w bs) :
    transmuteFromBytes e bs < 256 ^ w := by
  cases e with
  | big => exact fromLe_lt_w (validBytes_reverse h)
  | little => exact fromLe_lt_w h

theorem validBytes_transmuteTo (e : Endian) (w n : Nat) :
    ValidBytes w (transmuteToBytes e w n) := by
  cases e with
  | big => exact validBytes_beBytes w n
  | little => exact validBytes_leBytes w n

/-! ### Normalization of the fallback implementations: each fallback method
computes the same function as the platform primitive the native path
delegates to. -/

theorem intFallback_to_be_eq (e : Endian) (w n : Nat) :
    IntFallback.to_be_bytes e w n = std_to_be_bytes w n := by
  cases e with
  | big => rfl
  | little =>
    simp only [IntFallback.to_be_bytes, IntFallback.to_ne_bytes, to_be, swap_bytes,
      transmuteToBytes, std_from_le_bytes, std_to_be_bytes]
    exact leBytes_fromLe_w (validBytes_beBytes w n)

theorem intFallback_to_le_eq (e : Endian) (w n : Nat) :
    IntFallback.to_le_bytes e w n = std_to_le_bytes w n := by
  cases e with
  | big =>
    simp only [IntFallback.to_le_bytes, IntFallback.to_ne_bytes, to_le, swap_bytes,
      transmuteToBytes, std_from_le_bytes, std_to_be_bytes, std_to_le_bytes, beBytes]
    rw [leBytes_fromLe_w (validBytes_reverse (validBytes_leBytes w n)), List.reverse_reverse]
  | little => rfl

theorem intFallback_to_ne_eq (e : Endian) (w n : Nat) :
    IntFallback.to_ne_bytes e w n = std_to_ne_bytes e w n := by
  cases e <;> rfl

theorem intFallback_from_be_eq (e : Endian) {w : Nat} {bs : List Nat}
    (h : ValidBytes w bs) : IntFallback.from_be_bytes e w bs = std_from_be_bytes bs := by
  cases e with
  | big => rfl
  | little =>
    simp only [IntFallback.from_be_bytes, IntFallback.from_ne_bytes, from_be, swap_bytes,
      transmuteFromBytes, std_from_le_bytes, std_to_be_bytes, std_from_be_bytes, beBytes]
    rw [leBytes_fromLe_w h]

theorem intFallback_from_le_eq (e : Endian) {w : Nat} {bs : List Nat}
    (h : ValidBytes w bs) : IntFallback.from_le_bytes e w bs = std_from_le_bytes bs := by
  cases e with
  | big =>
    simp only [IntFallback.from_le_bytes, IntFallback.from_ne_bytes, from_le, swap_bytes,
      transmuteFromBytes, std_from_le_bytes, std_to_be_bytes, std_from_be_bytes, beBytes]
    rw [leBytes_fromLe_w (validBytes_reverse h), List.reverse_reverse]
  | little => rfl

theorem intFallback_from_ne_eq (e : Endian) (w : Nat) (bs : List Nat) :
    IntFallback.from_ne_bytes e w bs = std_from_ne_bytes e bs := by
  cases e <;> rfl

theorem floatFallback_to_ne_eq (e : Endian) (w n : Nat) :
    FloatFallback.to_ne_bytes e w n = std_to_ne_bytes e w n := by
  cases e <;> rfl

theorem floatFallback_to_be_eq (e : Endian) (w n : Nat) (h : n < 256 ^ w) :
    FloatFallback.to_be_bytes e w n = std_to_be_bytes w n := by
  have hinner : std_from_ne_bytes e (FloatFallback.to_ne_bytes e w n) = n := by
    cases e with
    | big =>
      simp only [FloatFallback.to_ne_bytes, std_from_ne_bytes, transmuteToBytes,
        std_from_be_bytes, beBytes, List.reverse_reverse]
      exact fromLe_leBytes w n h
    | little => exact fromLe_leBytes w n h
  simp only [FloatFallback.to_be_bytes]
  rw [hinner]

theorem floatFallback_to_le_eq (e : Endian) (w n : Nat) (h : n < 256 ^ w) :
    FloatFallback.to_le_bytes e w n = std_to_le_bytes w n := by
  have hinner : std_from_ne_bytes e (FloatFallback.to_ne_bytes e w n) = n := by
    cases e with
    | big =>
      simp only [FloatFallback.to_ne_bytes, std_from_ne_bytes, transmuteToBytes,
        std_from_be_bytes, beBytes, List.reverse_reverse]
      exact fromLe_leBytes w n h
    | little => exact fromLe_leBytes w n h
  simp only [FloatFallback.to_le_bytes]
  rw [hinner]

theorem floatFallback_from_ne_eq (e : Endian) (w : Nat) (bs : List Nat) :
    FloatFallback.from_ne_bytes e w bs = std_from_ne_bytes e bs := by
  cases e <;> rfl

theorem floatFallback_from_be_eq (e : Endian) {w : Nat} {bs : List Nat}
    (h : ValidBytes w bs) : FloatFallback.from_be_bytes e w bs = std_from_be_bytes bs := by
  have hb : std_from_be_bytes bs < 256 ^ w := fromBe_lt_w h
  have hto : std_to_ne_bytes e w (std_from_be_bytes bs) =
      transmuteToBytes e w (std_from_be_bytes bs) := by cases e <;> rfl
  have hfrom : FloatFallback.from_ne_bytes e w
      (transmuteToBytes e w (std_from_be_bytes bs)) = std_from_be_bytes bs :=
    transmuteFrom_transmuteTo e w _ hb
  simp only [FloatFallback.from_be_bytes]
  rw [hto]
  exact hfrom

theorem floatFallback_from_le_eq (e : Endian) {w : Nat} {bs : List Nat}
    (h : ValidBytes w bs) : FloatFallback.from_le_bytes e w bs = std_from_le_bytes bs := by
  have hb : std_from_le_bytes bs < 256 ^ w := fromLe_lt_w h
  have hto : std_to_ne_bytes e w (std_from_le_bytes bs) =
      transmuteToBytes e w (std_from_le_bytes bs) := by cases e <;> rfl
  have hfrom : FloatFallback.from_ne_bytes e w
      (transmuteToBytes e w (std_from_le_bytes bs)) = std_from_le_bytes bs :=
    transmuteFrom_transmuteTo e w _ hb
  simp only [FloatFallback.from_le_bytes]
  rw [hto]
  exact hfrom

/-! ### Dispatch-level facts. -/

theorem intToBytes_eq_native (o : ByteOrder) (e : Endian) (w n : Nat) :
    intToBytes .fallback o e w n = intToBytes .native o e w n := by
  cases o with
  | be => exact intFallback_to_be_eq e w n
  | le => exact intFallback_to_le_eq e w n
  | ne => exact intFallback_to_ne_eq e w n

theorem intFromBytes_eq_native (o : ByteOrder) (e : Endian) {w : Nat} {bs : List Nat}
    (h : ValidBytes w bs) :
    intFromBytes .fallback o e w bs = intFromBytes .native o e w bs := by
  cases o with
  | be => exact intFallback_from_be_eq e h
  | le => exact intFallback_from_le_eq e h
  | ne => exact intFallback_from_ne_eq e w bs

theorem floatToBytes_eq_native (o : ByteOrder) (e : Endian) (w n : Nat) (h : n < 256 ^ w) :
    floatToBytes .fallback o e w n = floatToBytes .native o e w n := by
  cases o with
  | be => exact floatFallback_to_be_eq e w n h
  | le => exact floatFallback_to_le_eq e w n h
  | ne => exact floatFallback_to_ne_eq e w n

theorem floatFromBytes_eq_native (o : ByteOrder) (e : Endian) {w : Nat} {bs : List Nat}
    (h : ValidBytes w bs) :
    floatFromBytes .fallback o e w bs = floatFromBytes .native o e w bs := by
  cases o with
  | be => exact floatFallback_from_be_eq e h
  | le => exact floatFallback_from_le_eq e h
  | ne => exact floatFallback_from_ne_eq e w bs

theorem intToBytes_valid (i : Impl) (o : ByteOrder) (e : Endian) (w n : Nat) :
    ValidBytes w (intToBytes i o e w n) := by
  have hnat : ∀ o, ValidBytes w (intToBytes .native o e w n) := by
    intro o
    cases o with
    | be => exact validBytes_beBytes w n
    | le => exact validBytes_leBytes w n
    | ne =>
      cases e with
      | big => exact validBytes_beBytes w n
      | little => exact validBytes_leBytes w n
  cases i with
  | native => exact hnat o
  | fallback => rw [intToBytes_eq_native]; exact hnat o

theorem floatToBytes_valid (i : Impl) (o : ByteOrder) (e : Endian) (w n : Nat) :
    ValidBytes w (floatToBytes i o e w n) := by
  cases i with
  | native =>
    cases o with
    | be => exact validBytes_beBytes w n
    | le => exact validBytes_leBytes w n
    | ne =>
      cases e with
      | big => exact validBytes_beBytes w n
      | little => exact validBytes_leBytes w n
  | fallback =>
    cases o with
    | be => exact validBytes_beBytes w _
    | le => exact validBytes_leBytes w _
    | ne => exact validBytes_transmuteTo e w n

theorem intFromBytes_lt (i : Impl) (o : ByteOrder) (e : Endian) {w : Nat} {bs : List Nat}
    (h : ValidBytes w bs) : intFromBytes i o e w bs < 256 ^ w := by
  have hnat : ∀ o, intFromBytes .native o e w bs < 256 ^ w := by
    intro o
    cases o with
    | be => exact fromBe_lt_w h
    | le => exact fromLe_lt_w h
    | ne =>
      cases e with
      | big => exact fromBe_lt_w h
      | little => exact fromLe_lt_w h
  cases i with
  | native => exact hnat o
  | fallback => rw [intFromBytes_eq_native o e h]; exact hnat o

theorem floatFromBytes_lt (i : Impl) (o : ByteOrder) (e : Endian) {w : Nat} {bs : List Nat}
    (h : ValidBytes w bs) : floatFromBytes i o e w bs < 256 ^ w := by
  have hnat : ∀ o, floatFromBytes .native o e w bs < 256 ^ w := by
    intro o
    cases o with
    | be => exact fromBe_lt_w h
    | le => exact fromLe_lt_w h
    | ne =>
      cases e with
      | big => exact fromBe_lt_w h
      | little => exact fromLe_lt_w h
  cases i with
  | native => exact hnat o
  | fallback => rw [floatFromBytes_eq_native o e h]; exact hnat o

theorem intRoundTrip (i : Impl) (o : ByteOrder) (e : Endian) (w n : Nat) (h : n < 256 ^ w) :
    intFromBytes i o e w (intToBytes i o e w n) = n := by
  have hnat : ∀ o, intFromBytes .native o e w (intToBytes .native o e w n) = n := by
    intro o
    cases o with
    | be => exact fromBe_beBytes w n h
    | le => exact fromLe_leBytes w n h
    | ne =>
      cases e with
      | big => exact fromBe_beBytes w n h
      | little => exact fromLe_leBytes w n h
  cases i with
  | native => exact hnat o
  | fallback =>
    rw [intToBytes_eq_native, intFromBytes_eq_native o e (intToBytes_valid .native o e w n)]
    exact hnat o

theorem floatRoundTrip (i : Impl) (o : ByteOrder) (e : Endian) (w n : Nat) (h : n < 256 ^ w) :
    floatFromBytes i o e w (floatToBytes i o e w n) = n := by
  have hnat : ∀ o, floatFromBytes .native o e w (floatToBytes .native o e w n) = n := by
    intro o
    cases o with
    | be => exact fromBe_beBytes w n h
    | le => exact fromLe_leBytes w n h
    | ne =>
      cases e with
      | big => exact fromBe_beBytes w n h
      | little => exact fromLe_leBytes w n h
  cases i with
  | native => exact hnat o
  | fallback =>
    rw [floatToBytes_eq_native o e w n h,
      floatFromBytes_eq_native o e (floatToBytes_valid .native o e w n)]
    exact hnat o

theorem intToFromBytes (i : Impl) (o : ByteOrder) (e : Endian) {w : Nat} {bs : List Nat}
    (h : ValidBytes w bs) : intToBytes i o e w (intFromBytes i o e w bs) = bs := by
  have hnat : ∀ o, intToBytes .native o e w (intFromBytes .native o e w bs) = bs := by
    intro o
    cases o with
    | be => exact beBytes_fromBe_w h
    | le => exact leBytes_fromLe_w h
    | ne =>
      cases e with
      | big => exact beBytes_fromBe_w h
      | little => exact leBytes_fromLe_w h
  cases i with
  | native => exact hnat o
  | fallback =>
    rw [intFromBytes_eq_native o e h, intToBytes_eq_native]
    exact hnat o

theorem floatToFromBytes (i : Impl) (o : ByteOrder) (e : Endian) {w : Nat} {bs : List Nat}
    (h : ValidBytes w bs) : floatToBytes i o e w (floatFromBytes i o e w bs) = bs := by
  have hnat : ∀ o, floatToBytes .native o e w (floatFromBytes .native o e w bs) = bs := by
    intro o
    cases o with
    | be => exact beBytes_fromBe_w h
    | le => exact leBytes_fromLe_w h
    | ne =>
      cases e with
      | big => exact beBytes_fromBe_w h
      | little => exact leBytes_fromLe_w h
  cases i with
  | native => exact hnat o
  | fallback =>
    rw [floatFromBytes_eq_native o e h,
      floatToBytes_eq_native o e w _ (floatFromBytes_lt .native o e h)]
    exact hnat o

theorem intToBytes_be_reverse_le (i : Impl) (e : Endian) (w n : Nat) :
    intToBytes i .be e w n = (intToBytes i .le e w n).reverse := by
  cases i with
  | native => rfl
  | fallback => rw [intToBytes_eq_native, intToBytes_eq_native]; rfl

theorem intToBytes_ne_big (i : Impl) (w n : Nat) :
    intToBytes i .ne .big w n = intToBytes i .be .big w n := by
  cases i with
  | native => rfl
  | fallback => rw [intToBytes_eq_native, intToBytes_eq_native]; rfl

theorem intToBytes_ne_little (i : Impl) (w n : Nat) :
    intToBytes i .ne .little w n = intToBytes i .le .little w n := by
  cases i with
  | native => rfl
  | fallback => rw [intToBytes_eq_native, intToBytes_eq_native]; rfl

theorem floatToBytes_be_reverse_le (i : Impl) (e : Endian) (w n : Nat) (h : n < 256 ^ w) :
    floatToBytes i .be e w n = (floatToBytes i .le e w n).reverse := by
  cases i with
  | native => rfl
  | fallback => rw [floatToBytes_eq_native _ _ _ _ h, floatToBytes_eq_native _ _ _ _ h]; rfl

theorem floatToBytes_ne_big (i : Impl) (w n : Nat) (h : n < 256 ^ w) :
    floatToBytes i .ne .big w n = floatToBytes i .be .big w n := by
  cases i with
  | native => rfl
  | fallback => rw [floatToBytes_eq_native _ _ _ _ h, floatToBytes_eq_native _ _ _ _ h]; rfl

theorem floatToBytes_ne_little (i : Impl) (w n : Nat) (h : n < 256 ^ w) :
    floatToBytes i .ne .little w n = floatToBytes i .le .little w n := by
  cases i with
  | native => rfl
  | fallback => rw [floatToBytes_eq_native _ _ _ _ h, floatToBytes_eq_native _ _ _ _ h]; rfl

/-! ### The build-time capability prober, `build.rs`.

`fn main` (lines 6-26): probe `0i128`; on success emit the rustc cfg
`has_i128`, on failure abort the build when the Cargo feature `i128` was
requested.  Then probe the `u64::to_ne_bytes` round trip; on success emit the
rustc cfg `int_to_from_bytes`.  (The statements after the closing brace of
`fn main` on line 26 are outside any function and are not part of `main`;
they are not modelled.) -/

/-- Outcome of running the build script: either a list of emitted rustc cfgs,
or a build abort with a message. -/
inductive BuildOutcome
  | emitted (cfgs : List String)
  | abortBuild (msg : String)
deriving DecidableEq, Repr

/-- `fn main` of `build.rs` (lines 6-26).  `i128ProbeOk` is the result of
`probe("fn main() { 0i128; }")`, `intBytesProbeOk` the result of the
`to_ne_bytes` round-trip probe, `featureI128` whether `CARGO_FEATURE_I128`
is set. -/
def buildMain (i128ProbeOk intBytesProbeOk featureI128 : Bool) : BuildOutcome :=
  if i128ProbeOk then
    .emitted (["has_i128"] ++ if intBytesProbeOk then ["int_to_from_bytes"] else [])
  else if featureI128 then
    .abortBuild "i128 support was not detected!"
  else
    .emitted (if intBytesProbeOk then ["int_to_from_bytes"] else [])

/-- `bytes.rs` lines 189/224: the integer impl compiled is the native one
exactly when the *Cargo feature* `has_int_to_from_bytes` is enabled
(`#[cfg(feature = "has_int_to_from_bytes")]`); a `cargo:rustc-cfg` flag
emitted by the build script is not a Cargo feature and does not satisfy this
predicate. -/
def selectedIntImpl (cargoFeatures : List String) : Impl :=
  if "has_int_to_from_bytes" ∈ cargoFeatures then .native else .fallback

/-- `bytes.rs` lines 115/150: the float impl compiled is the native one
exactly when the Cargo feature `has_float_to_from_bytes` is enabled. -/
def selectedFloatImpl (cargoFeatures : List String) : Impl :=
  if "has_float_to_from_bytes" ∈ cargoFeatures then .native else .fallback

/-- `bytes.rs` lines 273-276: the `u128`/`i128` impls are compiled exactly
when the rustc cfg `has_i128` was emitted (`#[cfg(has_i128)]`). -/
def i128ImplsIncluded (emittedCfgs : List String) : Prop :=
  "has_i128" ∈ emittedCfgs

instance (cfgs : List String) : Decidable (i128ImplsIncluded cfgs) := by
  unfold i128ImplsIncluded
  infer_instance

/-! ### The concrete per-type instantiations, `bytes.rs` lines 261-279. -/

/-- The `(type, L)` pairs at which the impl macros are instantiated:
`int_to_from_bytes_impl!` (lines 261-276) and `float_to_from_bytes_impl!`
(lines 278-279).  Note `usize` and `isize` are instantiated with the fixed
length 8. -/
def implInstantiations : List (String × Nat) :=
  [("u8", 1), ("u16", 2), ("u32", 4), ("u64", 8), ("usize", 8),
   ("i8", 1), ("i16", 2), ("i32", 4), ("i64", 8), ("isize", 8),
   ("u128", 16), ("i128", 16), ("f32", 4), ("f64", 8)]

/-- Modelled from the spec: the storage width, in bytes, of each primitive
type on a target whose pointers are `pwBytes` bytes wide (Rust targets have
pointer widths 16, 32 or 64 bits, i.e. `pwBytes` ∈ {2, 4, 8}).  The
pointer-sized types `usize`/`isize` occupy exactly `pwBytes` bytes; the other
types have a fixed width. -/
def storageWidthBytes (pwBytes : Nat) (t : String) : Nat :=
  if t = "usize" ∨ t = "isize" then pwBytes
  else if t = "u8" ∨ t = "i8" then 1
  else if t = "u16" ∨ t = "i16" then 2
  else if t = "u32" ∨ t = "i32" ∨ t = "f32" then 4
  else if t = "u64" ∨ t = "i64" ∨ t = "f64" then 8
  else 16

/-! ### The claims. -/

/-- C1: For every primitive type (integer or float, any width), every ordering
in {big-endian, little-endian, native}, every implementation strategy and
every representable bit pattern `n`, `from_X_bytes (to_X_bytes n) = n`
bit-for-bit (floats are compared by bit pattern, so NaN payloads and the sign
of zero are preserved). -/
theorem claim_c1_round_trip (i : Impl) (o : ByteOrder) (e : Endian) (w n : Nat)
    (h : n < 256 ^ w) :
    intFromBytes i o e w (intToBytes i o e w n) = n ∧
    floatFromBytes i o e w (floatToBytes i o e w n) = n :=
  ⟨intRoundTrip i o e w n h, floatRoundTrip i o e w n h⟩

theorem claim_c1_round_trip_witness :
    (0x12345678 : Nat) < 256 ^ 4 ∧
    (intFromBytes .fallback .be .little 4 (intToBytes .fallback .be .little 4 0x12345678) =
        0x12345678 ∧
      floatFromBytes .fallback .be .little 4 (floatToBytes .fallback .be .little 4 0x12345678) =
        0x12345678) :=
  ⟨by norm_num, claim_c1_round_trip .fallback .be .little 4 0x12345678 (by norm_num)⟩

/-- C2: For every ordering, target endianness, width, representable value and
well-formed byte array, the native implementation and the fallback
implementation compute bit-identical results, for integers and floats, in
both directions. -/
theorem claim_c2_native_fallback_equiv (o : ByteOrder) (e : Endian) (w n : Nat)
    (bs : List Nat) (hn : n < 256 ^ w) (hbs : ValidBytes w bs) :
    intToBytes .fallback o e w n = intToBytes .native o e w n ∧
    intFromBytes .fallback o e w bs = intFromBytes .native o e w bs ∧
    floatToBytes .fallback o e w n = floatToBytes .native o e w n ∧
    floatFromBytes .fallback o e w bs = floatFromBytes .native o e w bs :=
  ⟨intToBytes_eq_native o e w n, intFromBytes_eq_native o e hbs,
    floatToBytes_eq_native o e w n hn, floatFromBytes_eq_native o e hbs⟩

theorem claim_c2_native_fallback_equiv_witness :
    (0x1234 : Nat) < 256 ^ 2 ∧ ValidBytes 2 [0xAB, 0xCD] ∧
    (intToBytes .fallback .le .big 2 0x1234 = intToBytes .native .le .big 2 0x1234 ∧
      intFromBytes .fallback .le .big 2 [0xAB, 0xCD] =
        intFromBytes .native .le .big 2 [0xAB, 0xCD] ∧
      floatToBytes .fallback .le .big 2 0x1234 = floatToBytes .native .le .big 2 0x1234 ∧
      floatFromBytes .fallback .le .big 2 [0xAB, 0xCD] =
        floatFromBytes .native .le .big 2 [0xAB, 0xCD]) :=
  ⟨by norm_num, by decide,
    claim_c2_native_fallback_equiv .le .big 2 0x1234 [0xAB, 0xCD] (by norm_num) (by decide)⟩

/-- C3: All six operations are total and pure.  In this embedding every
operation is a total function (no error value, no partial result is even
expressible), and the theorem records the remaining checkable content: every
`to_X_bytes` output is a complete, well-formed byte array of exactly width
`w` (for every input, even unrepresentable ones), and every `from_X_bytes`
output on a well-formed byte array is a representable bit pattern — for both
strategies, including the fallback paths that model `unsafe transmute`. -/
theorem claim_c3_total_pure (i : Impl) (o : ByteOrder) (e : Endian) (w n : Nat)
    (bs : List Nat) (hbs : ValidBytes w bs) :
    ValidBytes w (intToBytes i o e w n) ∧
    ValidBytes w (floatToBytes i o e w n) ∧
    intFromBytes i o e w bs < 256 ^ w ∧
    floatFromBytes i o e w bs < 256 ^ w :=
  ⟨intToBytes_valid i o e w n, floatToBytes_valid i o e w n,
    intFromBytes_lt i o e hbs, floatFromBytes_lt i o e hbs⟩

theorem claim_c3_total_pure_witness :
    ValidBytes 2 [7, 9] ∧
    (ValidBytes 2 (intToBytes .fallback .ne .big 2 99999) ∧
      ValidBytes 2 (floatToBytes .fallback .ne .big 2 99999) ∧
      intFromBytes .fallback .ne .big 2 [7, 9] < 256 ^ 2 ∧
      floatFromBytes .fallback .ne .big 2 [7, 9] < 256 ^ 2) :=
  ⟨by decide, claim_c3_total_pure .fallback .ne .big 2 99999 [7, 9] (by decide)⟩

/-- C4: `from_X_bytes` is the exact inverse of `to_X_bytes` in both
directions: for every well-formed byte array `bs` of width `w`,
`to_X_bytes (from_X_bytes bs) = bs` — every byte sequence of the right width
is accepted and reproduced, none is rejected or normalized — for both
strategies, integers and floats. -/
theorem claim_c4_bytes_round_trip (i : Impl) (o : ByteOrder) (e : Endian) (w : Nat)
    (bs : List Nat) (hbs : ValidBytes w bs) :
    intToBytes i o e w (intFromBytes i o e w bs) = bs ∧
    floatToBytes i o e w (floatFromBytes i o e w bs) = bs :=
  ⟨intToFromBytes i o e hbs, floatToFromBytes i o e hbs⟩

theorem claim_c4_bytes_round_trip_witness :
    ValidBytes 4 [0x12, 0x34, 0x56, 0x78] ∧
    (intToBytes .fallback .le .little 4
        (intFromBytes .fallback .le .little 4 [0x12, 0x34, 0x56, 0x78]) =
        [0x12, 0x34, 0x56, 0x78] ∧
      floatToBytes .fallback .le .little 4
        (floatFromBytes .fallback .le .little 4 [0x12, 0x34, 0x56, 0x78]) =
        [0x12, 0x34, 0x56, 0x78]) :=
  ⟨by decide,
    claim_c4_bytes_round_trip .fallback .le .little 4 [0x12, 0x34, 0x56, 0x78] (by decide)⟩

/-- C5 as stated is false: the claim requires the byte length of
`usize`/`isize` to equal the pointer width on every target, but
`bytes.rs` lines 265 and 271 instantiate both with the fixed length 8.  On a
target with 4-byte (32-bit) pointers the storage width of `usize` is 4 while
the instantiated byte length is 8. -/
theorem claim_c5_counterexample :
    ("usize", 8) ∈ implInstantiations ∧ ("isize", 8) ∈ implInstantiations ∧
    storageWidthBytes 4 "usize" = 4 ∧ storageWidthBytes 4 "usize" ≠ 8 := by
  refine ⟨by decide, by decide, by decide, by decide⟩

/-- C5 amended: every instantiated byte length equals the type's storage
width on targets with 8-byte (64-bit) pointers; for all types other than the
pointer-sized `usize`/`isize` the equality holds for every pointer width.
The pointer-sized types are hardcoded to length 8, so their byte length
matches the pointer width only on 64-bit targets. -/
theorem claim_c5_width_amended (p : String × Nat) (hp : p ∈ implInstantiations) :
    p.2 = storageWidthBytes 8 p.1 ∧
    (∀ pwBytes : Nat, p.1 ≠ "usize" → p.1 ≠ "isize" →
      p.2 = storageWidthBytes pwBytes p.1) := by
  fin_cases hp <;>
    exact ⟨by decide, fun pwBytes h1 h2 => by first | rfl | exact absurd rfl h1 | exact absurd rfl h2⟩

theorem claim_c5_width_amended_witness :
    ("u32", 4) ∈ implInstantiations ∧ (4 : Nat) = storageWidthBytes 8 "u32" :=
  ⟨by decide, (claim_c5_width_amended ("u32", 4) (by decide)).1⟩

/-- C6 names a configuration the code contradicts: with both probes
succeeding and no Cargo features enabled, `build.rs` emits the rustc cfg
`int_to_from_bytes`, yet both impl selections still compile the fallback,
because `bytes.rs` tests the Cargo features `has_int_to_from_bytes` /
`has_float_to_from_bytes`, which the probe never produces (and for the float
flag no probe exists at all).  The probe flag therefore never selects the
native strategy. -/
theorem claim_c6_probe_flag_unconsumed :
    buildMain true true false = .emitted ["has_i128", "int_to_from_bytes"] ∧
    selectedIntImpl [] = .fallback ∧
    selectedFloatImpl [] = .fallback ∧
    "has_int_to_from_bytes" ∉ (["has_i128", "int_to_from_bytes"] : List String) ∧
    "has_float_to_from_bytes" ∉ (["has_i128", "int_to_from_bytes"] : List String) := by
  refine ⟨rfl, rfl, rfl, by decide, by decide⟩

/-- C7: When the `0i128` probe fails, an explicit `i128` feature request
aborts the build with the message of `build.rs` line 11, while without the
request the build succeeds, `has_i128` is not emitted, and the
`u128`/`i128` impls (gated by `#[cfg(has_i128)]`, `bytes.rs` lines 273-276)
are excluded. -/
theorem claim_c7_i128_gate (i128ProbeOk intBytesProbeOk featureI128 : Bool)
    (hProbe : i128ProbeOk = false) :
    (featureI128 = true →
      buildMain i128ProbeOk intBytesProbeOk featureI128 =
        .abortBuild "i128 support was not detected!") ∧
    (featureI128 = false →
      ∃ cfgs, buildMain i128ProbeOk intBytesProbeOk featureI128 = .emitted cfgs ∧
        ¬ i128ImplsIncluded cfgs) := by
  subst hProbe
  constructor
  · intro hf
    subst hf
    rfl
  · intro hf
    subst hf
    cases intBytesProbeOk with
    | true => exact ⟨["int_to_from_bytes"], rfl, by decide⟩
    | false => exact ⟨[], rfl, by decide⟩

theorem claim_c7_i128_gate_witness :
    buildMain false true true = .abortBuild "i128 support was not detected!" :=
  (claim_c7_i128_gate false true true rfl).1 rfl

/-- C8: For both strategies and every representable value, `to_be_bytes` is
the exact byte-reverse of `to_le_bytes` (any width, so in particular every
width greater than 1), and `to_ne_bytes` coincides with `to_be_bytes` on a
big-endian target and with `to_le_bytes` on a little-endian target — for
integers and floats alike. -/
theorem claim_c8_cross_ordering (i : Impl) (e : Endian) (w n : Nat) (h : n < 256 ^ w) :
    intToBytes i .be e w n = (intToBytes i .le e w n).reverse ∧
    intToBytes i .ne .big w n = intToBytes i .be .big w n ∧
    intToBytes i .ne .little w n = intToBytes i .le .little w n ∧
    floatToBytes i .be e w n = (floatToBytes i .le e w n).reverse ∧
    floatToBytes i .ne .big w n = floatToBytes i .be .big w n ∧
    floatToBytes i .ne .little w n = floatToBytes i .le .little w n :=
  ⟨intToBytes_be_reverse_le i e w n, intToBytes_ne_big i w n, intToBytes_ne_little i w n,
    floatToBytes_be_reverse_le i e w n h, floatToBytes_ne_big i w n h,
    floatToBytes_ne_little i w n h⟩

theorem claim_c8_cross_ordering_witness :
    (0x12345678 : Nat) < 256 ^ 4 ∧
    (intToBytes .fallback .be .little 4 0x12345678 =
        (intToBytes .fallback .le .little 4 0x12345678).reverse ∧
      intToBytes .fallback .ne .big 4 0x12345678 = intToBytes .fallback .be .big 4 0x12345678 ∧
      intToBytes .fallback .ne .little 4 0x12345678 =
        intToBytes .fallback .le .little 4 0x12345678 ∧
      floatToBytes .fallback .be .little 4 0x12345678 =
        (floatToBytes .fallback .le .little 4 0x12345678).reverse ∧
      floatToBytes .fallback .ne .big 4 0x12345678 =
        floatToBytes .fallback .be .big 4 0x12345678 ∧
      floatToBytes .fallback .ne .little 4 0x12345678 =
        floatToBytes .fallback .le .little 4 0x12345678) :=
  ⟨by norm_num, claim_c8_cross_ordering .fallback .little 4 0x12345678 (by norm_num)⟩

/-- The IEEE-754 bit pattern of the 32-bit float `-0.0`: only the sign bit is
set.  The pattern of `+0.0` is 0. -/
def negZeroF32Bits : Nat := 0x80000000

/-- C9: Float conversions are pure bit-reinterpretations: every 4-byte or
8-byte bit pattern (hence every NaN payload, signed zero and infinity)
survives `to_X_bytes` followed by `from_X_bytes` unchanged on both
strategies — including the fallback that routes through the equal-width
unsigned integer — and in particular the negative-zero 32-bit pattern round
trips with its sign bit (bit 31) still set, remaining distinct from the
pattern of positive zero. -/
theorem claim_c9_float_bit_fidelity (i : Impl) (o : ByteOrder) (e : Endian) (w n : Nat)
    (h : n < 256 ^ w) :
    floatFromBytes i o e w (floatToBytes i o e w n) = n ∧
    floatFromBytes i o e 4 (floatToBytes i o e 4 negZeroF32Bits) = negZeroF32Bits ∧
    negZeroF32Bits / 2 ^ 31 = 1 ∧ negZeroF32Bits ≠ 0 := by
  refine ⟨floatRoundTrip i o e w n h, ?_, by norm_num [negZeroF32Bits], by norm_num [negZeroF32Bits]⟩
  exact floatRoundTrip i o e 4 negZeroF32Bits (by norm_num [negZeroF32Bits])

theorem claim_c9_float_bit_fidelity_witness :
    (0x7FC00001 : Nat) < 256 ^ 4 ∧
    (floatFromBytes .fallback .le .big 4 (floatToBytes .fallback .le .big 4 0x7FC00001) =
        0x7FC00001 ∧
      floatFromBytes .fallback .le .big 4 (floatToBytes .fallback .le .big 4 negZeroF32Bits) =
        negZeroF32Bits ∧
      negZeroF32Bits / 2 ^ 31 = 1 ∧ negZeroF32Bits ≠ 0) :=
  ⟨by norm_num, claim_c9_float_bit_fidelity .fallback .le .big 4 0x7FC00001 (by norm_num)⟩

/-- C10: For the single-byte types (`u8`, `i8`, width 1) every ordering and
strategy produces the same one-element byte array `[n]`; in particular at
`0xAB` all orderings give `[0xAB]` (the witness). -/
theorem claim_c10_single_byte (i : Impl) (o : ByteOrder) (e : Endian) (n : Nat)
    (h : n < 256) :
    intToBytes i o e 1 n = [n] := by
  have hl : leBytes 1 n = [n] := by
    simp [leBytes, Nat.mod_eq_of_lt h]
  have hb : beBytes 1 n = [n] := by
    simp [beBytes, hl]
  have hnat : ∀ o e, intToBytes .native o e 1 n = [n] := by
    intro o e
    cases o with
    | be => exact hb
    | le => exact hl
    | ne =>
      cases e with
      | big => exact hb
      | little => exact hl
  cases i with
  | native => exact hnat o e
  | fallback => rw [intToBytes_eq_native]; exact hnat o e

theorem claim_c10_single_byte_witness :
    (0xAB : Nat) < 256 ∧
    intToBytes .fallback .be .little 1 0xAB = [0xAB] :=
  ⟨by norm_num, claim_c10_single_byte .fallback .be .little 0xAB (by norm_num)⟩
